import Mathlib

/- Verification development for the slurm-helper-scripts repository.

   Shallow embedding of the two report programs:
   * src/slurm_quota_and_usage.py      (per-user cost report, "v1" below)
   * src/slurm_quota_and_usage_msc.py  (per-account GPU-hours report, "v2" below)

   Numeric job data is modelled with exact rationals (Python's binary floats
   are replaced by the rationals they denote); external subprocess results are
   passed in as values of type Except Unit (List String): .ok with the output
   lines on success, .error on a CalledProcessError.  Python exceptions that
   escape a modelled function are represented by an Except/Option failure. -/

/-! ## Python string primitives -/

/-- Python str.split with a single-character separator, on character lists.
Python's "".split(c) gives [""], mirrored by the base case. -/
def splitOnChar (c : Char) : List Char → List (List Char)
  | [] => [[]]
  | x :: xs =>
    if x = c then [] :: splitOnChar c xs
    else
      match splitOnChar c xs with
      | [] => [[x]]
      | h :: t => (x :: h) :: t

/-- Python s.split(c) for a one-character separator c. -/
def strSplit (s : String) (c : Char) : List String :=
  (splitOnChar c s.data).map String.mk

/-- Character-list version of "the first list starts the second". -/
def charsPre : List Char → List Char → Bool
  | [], _ => true
  | _ :: _, [] => false
  | a :: as, b :: bs => a == b && charsPre as bs

/-- Python item.startswith(pat). -/
def strStarts (pat s : String) : Bool := charsPre pat.data s.data

/-- The whitespace characters stripped by Python str.strip(). -/
def isPySpace (c : Char) : Bool :=
  c = ' ' || c = '\t' || c = '\n' || c = '\r' || c = '\x0b' || c = '\x0c'

/-- Python s.strip(). -/
def pyStrip (s : String) : String :=
  String.mk (((s.data.dropWhile isPySpace).reverse.dropWhile isPySpace).reverse)

/-- Python truthiness of an optional string: None and "" are falsy. -/
def pyTruthy : Option String → Bool
  | none => false
  | some s => s ≠ ""

/-- A nonempty all-digit character list read as a natural number. -/
def parseDigits : List Char → Option Nat
  | [] => none
  | cs =>
    if cs.all Char.isDigit then
      some (cs.foldl (fun n c => 10 * n + (c.toNat - 48)) 0)
    else none

/-- Python int(s) on base-10 string literals: optional surrounding whitespace,
optional sign, then digits.  (Underscore digit grouping is not modelled.)
Returns none where Python raises ValueError. -/
def pyInt (s : String) : Option Int :=
  match (pyStrip s).data with
  | '-' :: cs => (parseDigits cs).map (fun n => -(n : Int))
  | '+' :: cs => (parseDigits cs).map (fun n => (n : Int))
  | cs => (parseDigits cs).map (fun n => (n : Int))

/-- Digits with an optional single decimal point read as an exact rational. -/
def parseDecimal (cs : List Char) : Option ℚ :=
  match (cs.takeWhile (fun c => c ≠ '.')), (cs.dropWhile (fun c => c ≠ '.')) with
  | intPart, [] => (parseDigits intPart).map (fun n => (n : ℚ))
  | intPart, _ :: fracPart =>
    if fracPart.any (fun c => c = '.') then none
    else
      match intPart, fracPart with
      | [], [] => none
      | [], f => (parseDigits f).map (fun n => (n : ℚ) / 10 ^ f.length)
      | i, [] => (parseDigits i).map (fun n => (n : ℚ))
      | i, f =>
        match parseDigits i, parseDigits f with
        | some a, some b => some ((a : ℚ) + (b : ℚ) / 10 ^ f.length)
        | _, _ => none

/-- Python float(s) on plain decimal literals: optional surrounding whitespace,
optional sign, digits with an optional fraction part.  (Exponent, inf and nan
forms are not modelled.)  Returns none where Python raises ValueError. -/
def pyFloat (s : String) : Option ℚ :=
  match (pyStrip s).data with
  | '-' :: cs => (parseDecimal cs).map Neg.neg
  | '+' :: cs => parseDecimal cs
  | cs => parseDecimal cs

/-! ## Shared resource-token extraction

Both scripts extract a GPU figure from a comma-separated key=value field with
`next((item.split('=')[1] for item in field.split(',') if
item.startswith('gres/gpu=')), default)`. -/

/-- The value part of the first comma-separated token starting with
"gres/gpu=", if any (the generator's next(..., None) form). -/
def findGpuToken (field : String) : Option String :=
  ((strSplit field ',').find? (fun item => strStarts "gres/gpu=" item)).map
    (fun item => (strSplit item '=').getD 1 "")

/-- The GPU count of an AllocTRES field: 0 when no gres/gpu token is present,
otherwise int() of the token's value (none when that int() raises). -/
def gpusOf (allocTres : String) : Option Int :=
  match findGpuToken allocTres with
  | none => some 0
  | some tok => pyInt tok

/-! ## Association-list and set helpers

Python dicts keyed by strings are modelled as association lists in insertion
order with unique keys; Python sets of strings as lists without duplicates. -/

/-- Update the value at the first occurrence of a key (Python d[k] mutation). -/
def alistUpdate {V : Type} (k : String) (f : V → V) : List (String × V) → List (String × V)
  | [] => []
  | (k', v) :: t => if k' = k then (k', f v) :: t else (k', v) :: alistUpdate k f t

/-- Append a fresh key with a default value when absent
(Python's `if k not in d: d[k] = v`). -/
def alistEnsure {V : Type} (k : String) (v : V) (l : List (String × V)) : List (String × V) :=
  if (l.lookup k).isSome then l else l ++ [(k, v)]

/-- Python set.add on a duplicate-free list. -/
def setAdd (a : String) (l : List String) : List String :=
  if a ∈ l then l else l ++ [a]

/-! ## sacct command construction (get_usage) -/

/-- The fixed part of the sacct invocation, shared by both scripts. -/
def base_cmd (startDate endDate : String) : List String :=
  ["sacct", "-n", "-P", "-X",
   "-S", startDate,
   "-E", endDate,
   "--format=JobID,User,ElapsedRaw,AllocTRES,Partition,Account",
   "--qos=normal_qos,large_qos",
   "--truncate"]

/-- One line of the coordinator-check output matches when it has at least 4
pipe-separated fields, its first field is the account, and the username is a
member of the comma-separated fourth field (a None username never matches,
as in Python `None in list`). -/
def coord_match (account : String) (username : Option String) (line : String) : Bool :=
  let ps := strSplit line '|'
  decide (4 ≤ ps.length) && (ps.getD 0 "" == account) &&
    (match username with
     | none => false
     | some u => (strSplit (ps.getD 3 "") ',').contains u)

/-- get_usage from slurm_quota_and_usage.py: the sacct argument list it builds.
coordResult is the sacctmgr coordinator-check outcome (.error on a
CalledProcessError, which the script only logs). -/
def get_usage_cmd_v1 (startDate endDate : String) (account username : Option String)
    (coordResult : Except Unit (List String)) : List String :=
  let cmd := base_cmd startDate endDate
  let cmd :=
    if pyTruthy account then
      let a := account.getD ""
      let cmd := cmd ++ ["-A", a]
      match coordResult with
      | .ok lines => if lines.any (coord_match a username) then cmd ++ ["-a"] else cmd
      | .error _ => cmd
    else cmd
  if pyTruthy username = true ∧ "-a" ∉ cmd then cmd ++ ["-u", username.getD ""] else cmd

/-- get_usage from slurm_quota_and_usage_msc.py: no coordinator check. -/
def get_usage_cmd_v2 (startDate endDate : String) (account username : Option String) :
    List String :=
  let cmd := base_cmd startDate endDate
  let cmd := if pyTruthy account then cmd ++ ["-A", account.getD ""] else cmd
  if pyTruthy username then cmd ++ ["-u", username.getD ""] else cmd

/-! ## The main() permission gate -/

/-- The two fatal argument/permission errors of main() (both sys.exit(1)). -/
inductive MainErr where
  | permissionDenied
  | invalidArguments
  deriving DecidableEq, Repr

/-- Outcome of main() up to the primary usage query: either an early
sys.exit(code) or the sacct command that gets issued. -/
inductive MainResult where
  | exitErr (code : Nat) (err : MainErr)
  | query (cmd : List String)
  deriving DecidableEq, Repr

/-- main() of slurm_quota_and_usage.py up to the usage query: the permission
gate on the caller identity (os.getenv USER, possibly absent) followed by
get_usage.  Non-root callers have their username forced to the caller
identity; root must supply a username or an account. -/
def main_v1 (currentUser username account : Option String)
    (startDate endDate : String) (coordResult : Except Unit (List String)) : MainResult :=
  if currentUser ≠ some "root" then
    if pyTruthy username = true ∧ username ≠ currentUser then
      .exitErr 1 .permissionDenied
    else
      .query (get_usage_cmd_v1 startDate endDate account currentUser coordResult)
  else
    if pyTruthy username = false ∧ pyTruthy account = false then
      .exitErr 1 .invalidArguments
    else
      .query (get_usage_cmd_v1 startDate endDate account username coordResult)

/-- main() of slurm_quota_and_usage_msc.py up to the usage query: the same
permission gate, then the coordinator-free get_usage. -/
def main_v2 (currentUser username account : Option String)
    (startDate endDate : String) : MainResult :=
  if currentUser ≠ some "root" then
    if pyTruthy username = true ∧ username ≠ currentUser then
      .exitErr 1 .permissionDenied
    else
      .query (get_usage_cmd_v2 startDate endDate account currentUser)
  else
    if pyTruthy username = false ∧ pyTruthy account = false then
      .exitErr 1 .invalidArguments
    else
      .query (get_usage_cmd_v2 startDate endDate account username)

/-! ## Usage aggregation: per-user cost variant (calculate_cost) -/

/-- The global COST_PER_GPU_MINUTE table of slurm_quota_and_usage.py
(the float 0.2 is the exact rational 1/5 here). -/
def COST_PER_GPU_MINUTE : List (String × ℚ) :=
  [("normal", 1/5), ("large", 1/5), ("buildlam", 1/5)]

/-- parse_time of slurm_quota_and_usage.py: int(s)/60 minutes.
none where int() raises ValueError. -/
def parse_time (s : String) : Option ℚ :=
  (pyInt s).map (fun n => (n : ℚ) / 60)

/-- parse_time of slurm_quota_and_usage_msc.py: int(s)/3600 hours. -/
def parse_time_msc (s : String) : Option ℚ :=
  (pyInt s).map (fun n => (n : ℚ) / 3600)

/-- What one accepted job row contributes in the cost variant:
gm = minutes * gpus, jc = minutes * gpus * cost_per_minute. -/
structure CostContrib where
  user : String
  partName : String
  account : String
  gm : ℚ
  jc : ℚ
  deriving DecidableEq, Repr

/-- Per-partition bucket of the cost variant ({"gpu_minutes": _, "cost": _}). -/
structure PartAgg where
  gpu_minutes : ℚ
  cost : ℚ
  deriving DecidableEq, Repr

/-- Per-user aggregate of the cost variant
({"total": _, "partitions": _, "accounts": set}). -/
structure UserAgg where
  total : ℚ
  partitions : List (String × PartAgg)
  accounts : List String
  deriving DecidableEq, Repr

/-- The state calculate_cost builds: usage_by_user and all_accounts. -/
structure CostState where
  usage_by_user : List (String × UserAgg)
  all_accounts : List String
  deriving DecidableEq, Repr

/-- Outcome of one iteration of the calculate_cost loop body on a line. -/
inductive LineRes (C : Type) where
  | skip
  | err
  | contrib (c : C)
  deriving DecidableEq, Repr

/-- The cost-variant loop body on the six unpacked fields: the user/partition
filter, parse_time, GPU extraction, and the zero-GPU skip, in source order.
err marks a Python ValueError (non-integer elapsed or GPU count). -/
def cost_fields (user elapsed allocTres partName account : String) :
    LineRes CostContrib :=
  if user = "" ∨ partName = "" ∨ (COST_PER_GPU_MINUTE.lookup partName).isNone then
    .skip
  else
    match parse_time elapsed with
    | none => .err
    | some minutes =>
      match gpusOf allocTres with
      | none => .err
      | some gpus =>
        if gpus = 0 then .skip
        else
          .contrib
            { user := user, partName := partName, account := account
              gm := minutes * (gpus : ℚ)
              jc := minutes * (gpus : ℚ) *
                ((COST_PER_GPU_MINUTE.lookup partName).getD 0) }

/-- The cost-variant loop body on the split fields: fewer than 6 fields are
skipped; more than 6 make the 6-tuple unpacking raise (err); exactly 6 are
unpacked positionally (field 0, the job id, is unused). -/
def cost_parts (ps : List String) : LineRes CostContrib :=
  if ps.length < 6 then .skip
  else if 6 < ps.length then .err
  else cost_fields (ps.getD 1 "") (ps.getD 2 "") (ps.getD 3 "") (ps.getD 4 "") (ps.getD 5 "")

/-- The cost-variant loop body on a raw line (empty lines are skipped). -/
def cost_line (line : String) : LineRes CostContrib :=
  if line = "" then .skip else cost_parts (strSplit line '|')

/-- The per-user mutations calculate_cost performs for one accepted job:
ensure the partition bucket exists, add gm to gpu_minutes, add the account
to the user's account set, add jc to the user total and the partition cost. -/
def bump_user_agg (c : CostContrib) (ua : UserAgg) : UserAgg :=
  { total := ua.total + c.jc
    partitions :=
      alistUpdate c.partName
        (fun pa => { gpu_minutes := pa.gpu_minutes + c.gm, cost := pa.cost + c.jc })
        (alistEnsure c.partName ⟨0, 0⟩ ua.partitions)
    accounts := setAdd c.account ua.accounts }

/-- The dict/set mutations calculate_cost performs for one accepted job,
fused into one update per dict: ensure the user entry exists, apply the
per-user mutations, add the account to the global account set. -/
def apply_cost_contrib (s : CostState) (c : CostContrib) : CostState :=
  { usage_by_user :=
      alistUpdate c.user (bump_user_agg c)
        (alistEnsure c.user ⟨0, [], []⟩ s.usage_by_user)
    all_accounts := setAdd c.account s.all_accounts }

/-- One loop iteration of calculate_cost as a fallible state step. -/
def cost_step (s : CostState) (line : String) : Except Unit CostState :=
  match cost_line line with
  | .skip => .ok s
  | .err => .error ()
  | .contrib c => .ok (apply_cost_contrib s c)

/-- calculate_cost of slurm_quota_and_usage.py: fold the loop body over the
input lines from empty aggregates; .error when the loop raises. -/
def calculate_cost (usage_data : List String) : Except Unit CostState :=
  usage_data.foldlM cost_step ⟨[], []⟩

/-- The contribution a line makes, if it is neither skipped nor an error. -/
def cost_contrib_of (line : String) : Option CostContrib :=
  match cost_line line with
  | .contrib c => some c
  | _ => none

/-! ## Usage aggregation: per-account hours variant (calculate_gpu_hours) -/

/-- What one accepted job row contributes in the hours variant. -/
structure HourContrib where
  account : String
  partName : String
  gh : ℚ
  deriving DecidableEq, Repr

/-- Per-account aggregate of the hours variant; the partition buckets hold a
single gpu_hours figure. -/
structure AccAgg where
  total : ℚ
  partitions : List (String × ℚ)
  deriving DecidableEq, Repr

/-- The state calculate_gpu_hours builds. -/
structure HourState where
  usage_by_account : List (String × AccAgg)
  all_accounts : List String
  deriving DecidableEq, Repr

/-- The hours-variant loop body on the six unpacked fields: the
partition/account filter, parse_time, GPU extraction, zero-GPU skip. -/
def hour_fields (elapsed allocTres partName account : String) : LineRes HourContrib :=
  if partName = "" ∨ account = "" then .skip
  else
    match parse_time_msc elapsed with
    | none => .err
    | some hours =>
      match gpusOf allocTres with
      | none => .err
      | some gpus =>
        if gpus = 0 then .skip
        else .contrib { account := account, partName := partName, gh := hours * (gpus : ℚ) }

/-- The hours-variant loop body on the split fields. -/
def hour_parts (ps : List String) : LineRes HourContrib :=
  if ps.length < 6 then .skip
  else if 6 < ps.length then .err
  else hour_fields (ps.getD 2 "") (ps.getD 3 "") (ps.getD 4 "") (ps.getD 5 "")

/-- The hours-variant loop body on a raw line. -/
def hour_line (line : String) : LineRes HourContrib :=
  if line = "" then .skip else hour_parts (strSplit line '|')

/-- The per-account mutations calculate_gpu_hours performs for one accepted
job. -/
def bump_acc_agg (c : HourContrib) (aa : AccAgg) : AccAgg :=
  { total := aa.total + c.gh
    partitions :=
      alistUpdate c.partName (fun h => h + c.gh)
        (alistEnsure c.partName 0 aa.partitions) }

/-- The dict/set mutations calculate_gpu_hours performs for one accepted job. -/
def apply_hour_contrib (s : HourState) (c : HourContrib) : HourState :=
  { usage_by_account :=
      alistUpdate c.account (bump_acc_agg c)
        (alistEnsure c.account ⟨0, []⟩ s.usage_by_account)
    all_accounts := setAdd c.account s.all_accounts }

/-- One loop iteration of calculate_gpu_hours. -/
def hour_step (s : HourState) (line : String) : Except Unit HourState :=
  match hour_line line with
  | .skip => .ok s
  | .err => .error ()
  | .contrib c => .ok (apply_hour_contrib s c)

/-- calculate_gpu_hours of slurm_quota_and_usage_msc.py. -/
def calculate_gpu_hours (usage_data : List String) : Except Unit HourState :=
  usage_data.foldlM hour_step ⟨[], []⟩

/-- The contribution a line makes in the hours variant, if any. -/
def hour_contrib_of (line : String) : Option HourContrib :=
  match hour_line line with
  | .contrib c => some c
  | _ => none

/-! ## Association-list lemmas -/

theorem lookup_cons {V : Type} (k a : String) (w : V) (t : List (String × V)) :
    ((a, w) :: t).lookup k = if k = a then some w else t.lookup k := by
  by_cases h : k = a
  · subst h; simp [List.lookup]
  · simp [List.lookup, beq_eq_false_iff_ne.mpr h, h]

theorem lookup_alistUpdate {V : Type} (k k' : String) (f : V → V) (l : List (String × V)) :
    (alistUpdate k f l).lookup k' =
      if k' = k then (l.lookup k).map f else l.lookup k' := by
  induction l with
  | nil => simp [alistUpdate, List.lookup]
  | cons q t ih =>
    obtain ⟨a, w⟩ := q
    by_cases hak : a = k
    · subst hak
      by_cases hk : k' = a <;>
        simp [alistUpdate, lookup_cons, hk]
    · by_cases hk : k' = a
      · subst hk
        simp [alistUpdate, lookup_cons, hak, Ne.symm hak]
      · simp [alistUpdate, lookup_cons, hak, hk, Ne.symm hak, ih]

theorem lookup_append_single {V : Type} (k k' : String) (v : V) (l : List (String × V)) :
    (l ++ [(k, v)]).lookup k' =
      if (l.lookup k').isSome then l.lookup k'
      else if k' = k then some v else none := by
  induction l with
  | nil =>
    rw [List.nil_append, lookup_cons]
    by_cases h : k' = k <;> simp [List.lookup, h]
  | cons q t ih =>
    obtain ⟨a, w⟩ := q
    rw [List.cons_append, lookup_cons, lookup_cons]
    by_cases hk : k' = a
    · simp [hk]
    · simp only [if_neg hk]
      exact ih

theorem lookup_alistEnsure {V : Type} (k k' : String) (v : V) (l : List (String × V)) :
    (alistEnsure k v l).lookup k' =
      if k' = k then some ((l.lookup k).getD v) else l.lookup k' := by
  unfold alistEnsure
  by_cases h : (l.lookup k).isSome
  · obtain ⟨w, hw⟩ := Option.isSome_iff_exists.mp h
    rw [if_pos h]
    by_cases hk : k' = k
    · subst hk; simp [hw]
    · simp [hk]
  · rw [if_neg h, lookup_append_single]
    rw [Option.not_isSome_iff_eq_none] at h
    by_cases hk : k' = k
    · subst hk; simp [h]
    · by_cases h2 : (l.lookup k').isSome
      · simp [h2, hk]
      · rw [Option.not_isSome_iff_eq_none] at h2; simp [h2, hk]

theorem mem_alistUpdate {V : Type} {p : String × V} (k : String) (f : V → V)
    (l : List (String × V)) (h : p ∈ alistUpdate k f l) :
    p ∈ l ∨ ∃ v, (k, v) ∈ l ∧ p = (k, f v) := by
  induction l with
  | nil => simp [alistUpdate] at h
  | cons q t ih =>
    obtain ⟨a, w⟩ := q
    by_cases hak : a = k
    · subst hak
      rw [alistUpdate, if_pos rfl] at h
      rcases List.mem_cons.mp h with h1 | h2
      · exact Or.inr ⟨w, List.mem_cons_self _ _, h1⟩
      · exact Or.inl (List.mem_cons_of_mem _ h2)
    · rw [alistUpdate, if_neg hak] at h
      rcases List.mem_cons.mp h with h1 | h2
      · exact Or.inl (h1 ▸ List.mem_cons_self _ _)
      · rcases ih h2 with h3 | ⟨v, hv, he⟩
        · exact Or.inl (List.mem_cons_of_mem _ h3)
        · exact Or.inr ⟨v, List.mem_cons_of_mem _ hv, he⟩

theorem mem_alistEnsure {V : Type} {p : String × V} {k : String} {v : V}
    {l : List (String × V)} (h : p ∈ alistEnsure k v l) : p ∈ l ∨ p = (k, v) := by
  unfold alistEnsure at h
  split at h
  · exact Or.inl h
  · rcases List.mem_append.mp h with h1 | h2
    · exact Or.inl h1
    · simp only [List.mem_singleton] at h2
      exact Or.inr h2

theorem mem_setAdd (x a : String) (l : List String) :
    x ∈ setAdd a l ↔ x ∈ l ∨ x = a := by
  unfold setAdd
  by_cases h : a ∈ l
  · rw [if_pos h]
    constructor
    · exact Or.inl
    · rintro (hx | rfl)
      · exact hx
      · exact h
  · rw [if_neg h]; simp [List.mem_append]

theorem sum_map_alistUpdate {V : Type} (g : V → ℚ) (k : String) (f : V → V)
    (l : List (String × V)) (v : V) (hv : l.lookup k = some v) :
    ((alistUpdate k f l).map (fun p => g p.2)).sum =
      ((l.map (fun p => g p.2)).sum) + (g (f v) - g v) := by
  induction l with
  | nil => simp [List.lookup] at hv
  | cons q t ih =>
    obtain ⟨a, w⟩ := q
    by_cases hak : a = k
    · subst hak
      rw [lookup_cons, if_pos rfl] at hv
      obtain rfl : w = v := by simpa using hv
      rw [alistUpdate, if_pos rfl]
      simp only [List.map_cons, List.sum_cons]
      ring
    · rw [lookup_cons, if_neg (Ne.symm hak)] at hv
      rw [alistUpdate, if_neg hak]
      simp only [List.map_cons, List.sum_cons, ih hv]
      ring

theorem sum_map_alistEnsure {V : Type} (g : V → ℚ) (k : String) (v : V)
    (l : List (String × V)) (hz : g v = 0) :
    ((alistEnsure k v l).map (fun p => g p.2)).sum =
      (l.map (fun p => g p.2)).sum := by
  unfold alistEnsure
  split
  · rfl
  · simp [hz]

theorem lookup_eq_none_iff_keys {V : Type} (k : String) (l : List (String × V)) :
    l.lookup k = none ↔ k ∉ l.map Prod.fst := by
  induction l with
  | nil => simp [List.lookup]
  | cons q t ih =>
    obtain ⟨a, w⟩ := q
    by_cases hk : k = a <;> simp [lookup_cons, hk, ih]

theorem map_fst_alistUpdate {V : Type} (k : String) (f : V → V) (l : List (String × V)) :
    (alistUpdate k f l).map Prod.fst = l.map Prod.fst := by
  induction l with
  | nil => rfl
  | cons q t ih =>
    obtain ⟨a, w⟩ := q
    by_cases hak : a = k <;> simp [alistUpdate, hak, ih]

theorem nodup_keys_alistEnsure {V : Type} (k : String) (v : V) (l : List (String × V))
    (h : (l.map Prod.fst).Nodup) : ((alistEnsure k v l).map Prod.fst).Nodup := by
  unfold alistEnsure
  split
  · exact h
  · next hns =>
    rw [Option.not_isSome_iff_eq_none, lookup_eq_none_iff_keys] at hns
    simp only [List.map_append, List.map_cons, List.map_nil]
    rw [List.nodup_append]
    refine ⟨h, List.nodup_singleton _, ?_⟩
    intro x hx hxk
    simp only [List.mem_singleton] at hxk
    exact hns (hxk ▸ hx)

theorem lookup_of_mem_nodup {V : Type} {l : List (String × V)}
    (hnd : (l.map Prod.fst).Nodup) {k : String} {v : V} (h : (k, v) ∈ l) :
    l.lookup k = some v := by
  induction l with
  | nil => simp at h
  | cons q t ih =>
    obtain ⟨a, w⟩ := q
    simp only [List.map_cons, List.nodup_cons] at hnd
    rcases List.mem_cons.mp h with h1 | h2
    · cases h1
      simp [lookup_cons]
    · have hka : k ≠ a := by
        rintro rfl
        exact hnd.1 (List.mem_map.mpr ⟨(k, v), h2, rfl⟩)
      rw [lookup_cons, if_neg hka]
      exact ih hnd.2 h2

/-! ## Claim C1 -/

/-- C1: a caller identity that is not the superuser "root", requesting a
username that is set (truthy) and differs from the caller identity, makes
both report variants exit with code 1 (PermissionDenied) before any usage
query is constructed. -/
theorem c1_foreign_username_denied (currentUser username account : Option String)
    (startDate endDate : String) (coordResult : Except Unit (List String))
    (hroot : currentUser ≠ some "root") (hset : pyTruthy username = true)
    (hdiff : username ≠ currentUser) :
    main_v1 currentUser username account startDate endDate coordResult =
        .exitErr 1 .permissionDenied ∧
      main_v2 currentUser username account startDate endDate =
        .exitErr 1 .permissionDenied := by
  constructor <;>
    simp [main_v1, main_v2, hroot, hset, hdiff]

/-- Witness for C1 at a concrete non-root caller and foreign username. -/
theorem c1_foreign_username_denied_witness :
    main_v1 (some "alice") (some "bob") none "2024-01-01" "2024-02-01" (.error ()) =
        .exitErr 1 .permissionDenied ∧
      main_v2 (some "alice") (some "bob") none "2024-01-01" "2024-02-01" =
        .exitErr 1 .permissionDenied :=
  c1_foreign_username_denied (some "alice") (some "bob") none "2024-01-01" "2024-02-01"
    (.error ()) (by decide) (by decide) (by decide)

/-! ## Claim C3 -/

/-- C3: when the coordinator-check succeeds and some returned row lists the
username as a coordinator of the requested account, the constructed sacct
command is exactly the base command plus the account filter plus the
broadening flag "-a" — in particular no "-u" username filter is appended. -/
theorem c3_coordinator_broadens (startDate endDate a : String) (username : Option String)
    (lines : List String) (ha : a ≠ "") (l : String) (hl : l ∈ lines)
    (hm : coord_match a username l = true) :
    get_usage_cmd_v1 startDate endDate (some a) username (.ok lines) =
      base_cmd startDate endDate ++ ["-A", a, "-a"] ∧
    "-a" ∈ get_usage_cmd_v1 startDate endDate (some a) username (.ok lines) := by
  have htr : pyTruthy (some a) = true := by simp [pyTruthy, ha]
  have hany : lines.any (coord_match a username) = true :=
    List.any_eq_true.mpr ⟨l, hl, hm⟩
  have hmem : "-a" ∈ (base_cmd startDate endDate ++ ["-A", a]) ++ ["-a"] :=
    List.mem_append_right _ (List.mem_singleton.mpr rfl)
  have hcmd : get_usage_cmd_v1 startDate endDate (some a) username (.ok lines) =
      base_cmd startDate endDate ++ ["-A", a, "-a"] := by
    unfold get_usage_cmd_v1
    rw [htr]
    simp only [if_true, hany, Option.getD_some]
    rw [if_neg (fun hcond => hcond.2 hmem)]
    simp [List.append_assoc]
  exact ⟨hcmd, hcmd ▸ by simp⟩

/-- Witness for C3 at a concrete coordinator row. -/
theorem c3_coordinator_broadens_witness :
    get_usage_cmd_v1 "2024-01-01" "2024-02-01" (some "acctA") (some "bob")
        (.ok ["acctA|x|y|alice,bob"]) =
      base_cmd "2024-01-01" "2024-02-01" ++ ["-A", "acctA", "-a"] ∧
    "-a" ∈ get_usage_cmd_v1 "2024-01-01" "2024-02-01" (some "acctA") (some "bob")
        (.ok ["acctA|x|y|alice,bob"]) :=
  c3_coordinator_broadens "2024-01-01" "2024-02-01" "acctA" (some "bob")
    ["acctA|x|y|alice,bob"] (by decide) "acctA|x|y|alice,bob" (by decide) (by decide)

/-! ## Claim C4 -/

/-- C4: when the coordinator-check subprocess fails, get_usage does not
abort: it still returns a command, built as for a non-coordinator, with the
per-username filter "-u" appended.  (The inequalities with "-a" rule out
argument strings that collide with the broadening flag.) -/
theorem c4_coord_failure_nonfatal (startDate endDate a u : String)
    (ha : a ≠ "") (hu : u ≠ "") (hs : startDate ≠ "-a") (he : endDate ≠ "-a")
    (haa : a ≠ "-a") :
    get_usage_cmd_v1 startDate endDate (some a) (some u) (.error ()) =
      base_cmd startDate endDate ++ ["-A", a, "-u", u] := by
  have htr : pyTruthy (some a) = true := by simp [pyTruthy, ha]
  have hutr : pyTruthy (some u) = true := by simp [pyTruthy, hu]
  have hnmem : "-a" ∉ base_cmd startDate endDate ++ ["-A", a] := by
    simp only [base_cmd, List.mem_append, List.mem_cons, List.mem_singleton,
      List.not_mem_nil]
    push_neg
    refine ⟨?_, ?_⟩ <;> simp_all [Ne.symm hs, Ne.symm he, Ne.symm haa]
  unfold get_usage_cmd_v1
  rw [htr]
  simp only [if_true, Option.getD_some]
  rw [if_pos ⟨hutr, hnmem⟩]
  simp [List.append_assoc]

/-- Witness for C4 at concrete arguments. -/
theorem c4_coord_failure_nonfatal_witness :
    get_usage_cmd_v1 "2024-01-01" "2024-02-01" (some "acctA") (some "bob") (.error ()) =
      base_cmd "2024-01-01" "2024-02-01" ++ ["-A", "acctA", "-u", "bob"] :=
  c4_coord_failure_nonfatal "2024-01-01" "2024-02-01" "acctA" "bob"
    (by decide) (by decide) (by decide) (by decide) (by decide)

/-! ## Claim C2 (corrected) -/

/-- C2 counterexample: rows with an unparsable elapsed_seconds, and rows with
more than 6 fields, are not silently skipped — both aggregation functions
raise on them (modelled as .error), in contradiction with the claim that any
malformed row is skipped and never fatal. -/
theorem c2_counterexample_malformed_rows_raise :
    calculate_cost ["j|u|abc|gres/gpu=2|normal|acctA"] = .error () ∧
    calculate_gpu_hours ["j|u|abc|gres/gpu=2|normal|acctA"] = .error () ∧
    calculate_cost ["j|u|3600|gres/gpu=2|normal|acctA|extra"] = .error () ∧
    calculate_cost ["j|u|3600|gres/gpu=x|normal|acctA"] = .error () :=
  ⟨rfl, rfl, rfl, rfl⟩

/-- C2 as amended: the tolerated malformed rows are exactly the empty lines
and the lines with fewer than 6 pipe-separated fields; those are silently
skipped and leave all aggregates unchanged, in both variants.  (Rows with
more than 6 fields or with an unparsable numeric sub-field that is reached
instead raise, per the counterexample.) -/
theorem c2_amended_short_rows_skipped (line : String) (s : CostState) (s' : HourState)
    (h : line = "" ∨ (strSplit line '|').length < 6) :
    cost_step s line = .ok s ∧ hour_step s' line = .ok s' := by
  by_cases hline : line = ""
  · subst hline
    constructor <;> rfl
  · rcases h with rfl | hlen
    · exact absurd rfl hline
    · have hc : cost_line line = .skip := by
        rw [cost_line, if_neg hline, cost_parts, if_pos hlen]
      have hh : hour_line line = .skip := by
        rw [hour_line, if_neg hline, hour_parts, if_pos hlen]
      constructor
      · rw [cost_step, hc]
      · rw [hour_step, hh]

/-- Witness for the amended C2 at a concrete 2-field line. -/
theorem c2_amended_short_rows_skipped_witness :
    cost_step ⟨[], []⟩ "a|b" = .ok ⟨[], []⟩ ∧ hour_step ⟨[], []⟩ "a|b" = .ok ⟨[], []⟩ :=
  c2_amended_short_rows_skipped "a|b" ⟨[], []⟩ ⟨[], []⟩ (Or.inr (by decide))

/-! ## Claim C6 -/

/-- C6: a well-formed job row (6 fields, integer elapsed) with zero allocated
GPUs — a gres/gpu token with value 0 or no gres/gpu token at all — or whose
partition is not in the configured cost table, is skipped by the cost
variant: the state (all aggregates, per-user account sets and the global
account set) is returned unchanged and no error is raised. -/
theorem c6_zero_gpu_or_unbilled_skipped (s : CostState) (line : String)
    (jobId user elapsed allocTres partName account : String)
    (hsplit : strSplit line '|' = [jobId, user, elapsed, allocTres, partName, account])
    (h : COST_PER_GPU_MINUTE.lookup partName = none ∨
         ((pyInt elapsed).isSome ∧ gpusOf allocTres = some 0)) :
    cost_step s line = .ok s := by
  have hne : line ≠ "" := by
    intro h0
    rw [h0] at hsplit
    have hlen := congrArg List.length hsplit
    simp [strSplit, splitOnChar] at hlen
  have hparts : cost_parts [jobId, user, elapsed, allocTres, partName, account] =
      cost_fields user elapsed allocTres partName account := rfl
  have hfields : cost_fields user elapsed allocTres partName account = .skip := by
    rcases h with hnone | ⟨he, hg⟩
    · rw [cost_fields, if_pos (Or.inr (Or.inr (by simp [hnone])))]
    · by_cases hskip : user = "" ∨ partName = "" ∨
        (COST_PER_GPU_MINUTE.lookup partName).isNone = true
      · rw [cost_fields, if_pos hskip]
      · obtain ⟨n, hn⟩ := Option.isSome_iff_exists.mp he
        rw [cost_fields, if_neg hskip]
        have hpt : parse_time elapsed = some ((n : ℚ) / 60) := by
          simp [parse_time, hn]
        rw [hpt, hg]
        simp
  have hc : cost_line line = .skip := by
    rw [cost_line, if_neg hne, hsplit, hparts, hfields]
  rw [cost_step, hc]

/-- Witness for C6: a row with an empty AllocTRES (no gres/gpu token). -/
theorem c6_zero_gpu_or_unbilled_skipped_witness :
    cost_step ⟨[], []⟩ "j|alice|3600||normal|acctA" = .ok ⟨[], []⟩ :=
  c6_zero_gpu_or_unbilled_skipped ⟨[], []⟩ "j|alice|3600||normal|acctA"
    "j" "alice" "3600" "" "normal" "acctA" (by decide) (Or.inr ⟨by decide, by decide⟩)

/-! ## Claim C10: the end-of-day-plus-buffer end bound -/

/-- Gregorian leap year. -/
def isLeap (y : ℕ) : Bool := (y % 4 == 0 && y % 100 != 0) || y % 400 == 0

/-- Days in a Gregorian month. -/
def daysInMonth (y m : ℕ) : ℕ :=
  if m = 2 then (if isLeap y then 29 else 28)
  else if m = 4 ∨ m = 6 ∨ m = 9 ∨ m = 11 then 30 else 31

/-- A calendar date as datetime.date models it. -/
structure Date where
  year : ℕ
  month : ℕ
  day : ℕ
  deriving DecidableEq, Repr

/-- The date is an actual Gregorian calendar day. -/
def Date.isValid (d : Date) : Prop :=
  1 ≤ d.month ∧ d.month ≤ 12 ∧ 1 ≤ d.day ∧ d.day ≤ daysInMonth d.year d.month

/-- The calendar day after a date, with month and year rollover. -/
def nextDay (d : Date) : Date :=
  if d.day < daysInMonth d.year d.month then ⟨d.year, d.month, d.day + 1⟩
  else if d.month < 12 then ⟨d.year, d.month + 1, 1⟩
  else ⟨d.year + 1, 1, 1⟩

/-- Advance a date by a number of calendar days. -/
def addDays (d : Date) : ℕ → Date
  | 0 => d
  | n + 1 => addDays (nextDay d) n

/-- Microseconds in a day. -/
def microsecondsPerDay : ℕ := 86400000000

/-- datetime.time.max (23:59:59.999999) as microseconds since midnight. -/
def timeMaxMicro : ℕ := 86399999999

/-- The end-bound computation of both main() functions:
datetime.combine(end_date, time.max) + timedelta(minutes=15) then .date().
Combining with time.max puts the instant timeMaxMicro microseconds into
end_date; adding 15 minutes advances the date by the whole-day part of the
microsecond total, and .date() discards the sub-day remainder. -/
def end_date_with_buffer (d : Date) : Date :=
  addDays d ((timeMaxMicro + 15 * 60 * 1000000) / microsecondsPerDay)

/-- C10: for every valid requested end date, the end bound passed to the
usage query is the calendar day after it: end-of-day plus the 15-minute
buffer lands in the next day, and truncating back to a date yields exactly
that next day, in both report variants (the code is identical in the two). -/
theorem c10_end_bound_is_next_day (d : Date) (_h : d.isValid) :
    end_date_with_buffer d = nextDay d := rfl

/-- Witness for C10 at the year-rollover date 2024-12-31. -/
theorem c10_end_bound_is_next_day_witness :
    end_date_with_buffer ⟨2024, 12, 31⟩ = nextDay ⟨2024, 12, 31⟩ ∧
      nextDay ⟨2024, 12, 31⟩ = ⟨2025, 1, 1⟩ :=
  ⟨c10_end_bound_is_next_day ⟨2024, 12, 31⟩ (by unfold Date.isValid; decide), by decide⟩

/-! ## Limit lookup adapter (get_gpu_limits) -/

/-- The {"used": _, "total": _} pair get_gpu_limits of the cost variant
builds; the fields hold the raw token values (no numeric parsing there). -/
structure GpuLimitPair where
  used : Option String
  total : Option String
  deriving DecidableEq, Repr

/-- Python dict assignment d[k] = v: overwrite in place, or append. -/
def alistInsert {V : Type} (k : String) (v : V) (l : List (String × V)) :
    List (String × V) :=
  if (l.lookup k).isSome then alistUpdate k (fun _ => v) l else l ++ [(k, v)]

/-- One line of the cost variant's per-account sshare loop, acting on
gpu_limits[account] (none = the key is absent so far).  A row with ≥ 4
fields and empty user replaces the whole inner dict with the account-level
entry; a named-user row upserts that user; a short row replaces the inner
dict with {"account": None} (the inner Option is that Python None). -/
def sshare_v1_step (state : Option (List (String × Option GpuLimitPair)))
    (line : String) : Option (List (String × Option GpuLimitPair)) :=
  let parts := strSplit line '|'
  if 4 ≤ parts.length then
    let pair : GpuLimitPair :=
      ⟨findGpuToken (parts.getD 2 ""), findGpuToken (parts.getD 3 "")⟩
    if parts.getD 1 "" = "" then some [("account", some pair)]
    else some (alistInsert (parts.getD 1 "") (some pair) (state.getD []))
  else some [("account", none)]

/-- get_gpu_limits of the cost variant, for a single account's sshare output
lines (accounts are processed independently; the `if not lines` branch is
unreachable since str.split never returns an empty list). -/
def sshare_account_v1 (lines : List String) :
    Option (List (String × Option GpuLimitPair)) :=
  lines.foldl sshare_v1_step none

/-- The GPU-limit cell computation of format_output (cost variant): "N/A"
(modelled .ok none) unless the account and user are present with a non-None
pair whose total is present; then used and total are float()ed with falsy
values becoming 0 (.error models the float() ValueError on a non-numeric
value, and the TypeError of subscripting a None pair).  The f-string digit
formatting itself is presentation and not modelled: .ok (some (u, t)) is the
"u/t" cell. -/
def gpu_limit_render_v1 (gpu_limits : List (String × List (String × Option GpuLimitPair)))
    (account user : String) : Except Unit (Option (ℚ × ℚ)) :=
  match gpu_limits.lookup account with
  | none => .ok none
  | some inner =>
    match inner.lookup user with
    | none => .ok none
    | some none => .error ()
    | some (some ul) =>
      match ul.total with
      | none => .ok none
      | some t =>
        let usedQ : Option ℚ :=
          match ul.used with
          | none => some 0
          | some us => if us = "" then some 0 else pyFloat us
        let totalQ : Option ℚ := if t = "" then some 0 else pyFloat t
        match usedQ, totalQ with
        | some uq, some tq => .ok (some (uq, tq))
        | _, _ => .error ()

/-- One line of the hours variant's per-account sshare loop, acting on
gpu_limits[account] (outer none = key absent; inner none = Python None,
rendered "n/a").  float(gpu_mins)/60 when the token is truthy; the
ValueError of a non-numeric token is .error. -/
def sshare_v2_step (_state : Option (Option ℚ)) (line : String) :
    Except Unit (Option (Option ℚ)) :=
  let parts := strSplit line '|'
  if 2 ≤ parts.length then
    match findGpuToken (parts.getD 1 "") with
    | none => .ok (some none)
    | some gm =>
      if gm = "" then .ok (some none)
      else
        match pyFloat gm with
        | none => .error ()
        | some q => .ok (some (some (q / 60)))
  else .ok (some none)

/-- get_gpu_limits of the hours variant for a single account's lines. -/
def sshare_account_v2 (lines : List String) : Except Unit (Option (Option ℚ)) :=
  lines.foldlM sshare_v2_step none

theorem lookup_alistInsert {V : Type} (k k' : String) (v : V) (l : List (String × V)) :
    (alistInsert k v l).lookup k' = if k' = k then some v else l.lookup k' := by
  unfold alistInsert
  by_cases h : (l.lookup k).isSome
  · rw [if_pos h, lookup_alistUpdate]
    by_cases hk : k' = k
    · subst hk
      obtain ⟨w, hw⟩ := Option.isSome_iff_exists.mp h
      simp [hw]
    · simp [hk]
  · rw [if_neg h, lookup_append_single]
    rw [Option.not_isSome_iff_eq_none] at h
    by_cases hk : k' = k
    · subst hk; simp [h]
    · by_cases h2 : (l.lookup k').isSome
      · simp [h2, hk]
      · rw [Option.not_isSome_iff_eq_none] at h2
        simp [h2, hk]

/-! ## Claim C8 (corrected) -/

/-- C8 counterexample: an unparsable total_limit is not tolerated.  In the
cost variant an empty-string gres/gpu total ("gres/gpu=") renders as the
pair used/0 — a zero total, not N/A; a non-numeric total makes the renderer
raise float()'s ValueError; and in the hours variant a non-numeric total
makes get_gpu_limits itself raise. -/
theorem c8_counterexample_unparsable_total :
    gpu_limit_render_v1
        [("acctA", (sshare_account_v1 ["acctA|bob|gres/gpu=5|gres/gpu="]).getD [])]
        "acctA" "bob" = .ok (some ((pyFloat "5").getD 0, 0)) ∧
      (pyFloat "5").getD 0 = 5 ∧
      gpu_limit_render_v1
        [("acctA", (sshare_account_v1 ["acctA|bob|gres/gpu=5|gres/gpu=xyz"]).getD [])]
        "acctA" "bob" = .error () ∧
      sshare_account_v2 ["acctA|gres/gpu=xyz"] = .error () :=
  ⟨rfl, by decide, rfl, rfl⟩

/-- C8 as amended: a limit record whose total_limit is absent (no gres/gpu
token; in the hours variant also an empty token value) yields
not-applicable — .ok none / a None entry — never zero and without error, in
both variants; but unparsable totals are outside this guarantee: an
empty-string total renders with total 0 in the cost variant and a
non-numeric total raises in both variants, per the counterexample. -/
theorem c8_amended_absent_total_is_na :
    (∀ (gl : List (String × List (String × Option GpuLimitPair))) (account user : String)
        (inner : List (String × Option GpuLimitPair)) (ul : GpuLimitPair),
        gl.lookup account = some inner → inner.lookup user = some (some ul) →
        ul.total = none → gpu_limit_render_v1 gl account user = .ok none) ∧
      (∀ (state : Option (Option ℚ)) (line : String),
        2 ≤ (strSplit line '|').length →
        (findGpuToken ((strSplit line '|').getD 1 "") = none ∨
          findGpuToken ((strSplit line '|').getD 1 "") = some "") →
        sshare_v2_step state line = .ok (some none)) := by
  constructor
  · intro gl account user inner ul h1 h2 h3
    simp only [gpu_limit_render_v1, h1, h2, h3]
  · intro state line hlen htok
    rw [sshare_v2_step]
    rw [if_pos hlen]
    rcases htok with h | h
    · rw [h]
    · rw [h]
      simp

/-- Witness for the amended C8 at a pair with no total and a tokenless
hours-variant row. -/
theorem c8_amended_absent_total_is_na_witness :
    gpu_limit_render_v1 [("acctA", [("bob", some ⟨some "5", none⟩)])] "acctA" "bob" =
        .ok none ∧
      sshare_v2_step none "acctA|cpu=4,mem=2G" = .ok (some none) :=
  ⟨c8_amended_absent_total_is_na.1 [("acctA", [("bob", some ⟨some "5", none⟩)])]
      "acctA" "bob" [("bob", some ⟨some "5", none⟩)] ⟨some "5", none⟩
      (by decide) (by decide) rfl,
    c8_amended_absent_total_is_na.2 none "acctA|cpu=4,mem=2G" (by decide)
      (Or.inl (by decide))⟩

/-! ## Claim C9 (corrected) -/

/-- C9 counterexample: with the account-level (empty-user) row after a
named-user row, the adapter's output loses the user row entirely — the
account-level assignment replaces the whole per-account dict — so the
output does not contain a user-level pair for every named-user row. -/
theorem c9_counterexample_account_row_last_drops_users :
    sshare_account_v1
        ["acctA|bob|gres/gpu=5|gres/gpu=100", "acctA||gres/gpu=500|gres/gpu=3000"] =
      some [("account", some ⟨some "500", some "3000"⟩)] ∧
    ((sshare_account_v1
        ["acctA|bob|gres/gpu=5|gres/gpu=100", "acctA||gres/gpu=500|gres/gpu=3000"]).getD
      []).lookup "bob" = none :=
  ⟨rfl, rfl⟩

/-- Folding named-user sshare rows over an existing per-account dict keeps
every present key present, leaves keys outside the rows' usernames
untouched, and ends with every row's username present. -/
theorem sshare_v1_user_rows (rows : List String) (d : List (String × Option GpuLimitPair))
    (hrows : ∀ r ∈ rows, 4 ≤ (strSplit r '|').length ∧ (strSplit r '|').getD 1 "" ≠ "") :
    ∃ d', rows.foldl sshare_v1_step (some d) = some d' ∧
      (∀ k, k ∉ rows.map (fun r => (strSplit r '|').getD 1 "") →
        d'.lookup k = d.lookup k) ∧
      (∀ k, (d.lookup k).isSome = true → (d'.lookup k).isSome = true) ∧
      (∀ r ∈ rows, (d'.lookup ((strSplit r '|').getD 1 "")).isSome = true) := by
  induction rows generalizing d with
  | nil =>
    exact ⟨d, rfl, fun k _ => rfl, fun k h => h, fun r hr => absurd hr (List.not_mem_nil r)⟩
  | cons r rest ih =>
    obtain ⟨hlen, huser⟩ := hrows r (List.mem_cons_self r rest)
    have hstep : sshare_v1_step (some d) r =
        some (alistInsert ((strSplit r '|').getD 1 "")
          (some ⟨findGpuToken ((strSplit r '|').getD 2 ""),
                 findGpuToken ((strSplit r '|').getD 3 "")⟩) d) := by
      simp only [sshare_v1_step, if_pos hlen, if_neg huser, Option.getD_some]
    obtain ⟨d', hfold, hout, hmono, hall⟩ :=
      ih (alistInsert ((strSplit r '|').getD 1 "")
          (some ⟨findGpuToken ((strSplit r '|').getD 2 ""),
                 findGpuToken ((strSplit r '|').getD 3 "")⟩) d)
        (fun r' hr' => hrows r' (List.mem_cons_of_mem r hr'))
    refine ⟨d', ?_, ?_, ?_, ?_⟩
    · rw [List.foldl_cons, hstep, hfold]
    · intro k hk
      simp only [List.map_cons, List.mem_cons, not_or] at hk
      rw [hout k hk.2, lookup_alistInsert, if_neg hk.1]
    · intro k hk
      apply hmono
      rw [lookup_alistInsert]
      by_cases h : k = (strSplit r '|').getD 1 ""
      · rw [if_pos h]; rfl
      · rw [if_neg h]; exact hk
    · intro r' hr'
      rcases List.mem_cons.mp hr' with rfl | hmem
      · apply hmono
        rw [lookup_alistInsert, if_pos rfl]
        rfl
      · exact hall r' hmem

/-- C9 as amended: when the account-level (empty-user) row comes first and
every later row is a well-formed named-user row (with a username that is
neither empty nor the literal inner key "account"), the adapter's output
contains both the account-level pair taken from that first row and a
user-level pair for every named-user row.  (When the account-level row comes
after a named-user row, that user's entry is discarded, per the
counterexample, so the claim's order-independence fails.) -/
theorem c9_amended_account_row_first (accRow : String) (userRows : List String)
    (hlen : 4 ≤ (strSplit accRow '|').length)
    (hau : (strSplit accRow '|').getD 1 "" = "")
    (hrows : ∀ r ∈ userRows, 4 ≤ (strSplit r '|').length ∧
      (strSplit r '|').getD 1 "" ≠ "" ∧ (strSplit r '|').getD 1 "" ≠ "account") :
    ∃ d, sshare_account_v1 (accRow :: userRows) = some d ∧
      d.lookup "account" =
        some (some ⟨findGpuToken ((strSplit accRow '|').getD 2 ""),
                    findGpuToken ((strSplit accRow '|').getD 3 "")⟩) ∧
      ∀ r ∈ userRows, (d.lookup ((strSplit r '|').getD 1 "")).isSome = true := by
  have hstep : sshare_v1_step none accRow =
      some [("account", some ⟨findGpuToken ((strSplit accRow '|').getD 2 ""),
                              findGpuToken ((strSplit accRow '|').getD 3 "")⟩)] := by
    simp only [sshare_v1_step, if_pos hlen, hau, if_pos rfl, if_true]
  obtain ⟨d', hfold, hout, hmono, hall⟩ :=
    sshare_v1_user_rows userRows
      [("account", some ⟨findGpuToken ((strSplit accRow '|').getD 2 ""),
                         findGpuToken ((strSplit accRow '|').getD 3 "")⟩)]
      (fun r hr => ⟨(hrows r hr).1, (hrows r hr).2.1⟩)
  refine ⟨d', ?_, ?_, hall⟩
  · rw [sshare_account_v1, List.foldl_cons, hstep, hfold]
  · have hacct : "account" ∉ userRows.map (fun r => (strSplit r '|').getD 1 "") := by
      intro hmem
      obtain ⟨r, hr, he⟩ := List.mem_map.mp hmem
      exact (hrows r hr).2.2 he
    rw [hout "account" hacct, lookup_cons, if_pos rfl]

/-- Witness for the amended C9: account-level row first, one user row. -/
theorem c9_amended_account_row_first_witness :
    ∃ d, sshare_account_v1
        ["acctA||gres/gpu=500|gres/gpu=3000", "acctA|bob|gres/gpu=5|gres/gpu=100"] =
          some d ∧
      d.lookup "account" =
        some (some ⟨findGpuToken ((strSplit "acctA||gres/gpu=500|gres/gpu=3000" '|').getD 2 ""),
                    findGpuToken ((strSplit "acctA||gres/gpu=500|gres/gpu=3000" '|').getD 3 "")⟩) ∧
      ∀ r ∈ ["acctA|bob|gres/gpu=5|gres/gpu=100"],
        (d.lookup ((strSplit r '|').getD 1 "")).isSome = true :=
  c9_amended_account_row_first "acctA||gres/gpu=500|gres/gpu=3000"
    ["acctA|bob|gres/gpu=5|gres/gpu=100"] (by decide) (by decide) (by decide)

/-! ## Extensional characterization of the aggregation folds

Every aggregated quantity equals a membership test or a sum over the list of
accepted contributions, which settles both the partition/total invariants
and permutation invariance. -/

theorem filter_singleton_pos {α : Type} (p : α → Bool) (a : α) (h : p a = true) :
    [a].filter p = [a] := by
  simp [List.filter, h]

theorem filter_singleton_neg {α : Type} (p : α → Bool) (a : α) (h : p a = false) :
    [a].filter p = [] := by
  simp [List.filter, h]

/-- The accepted contributions of an input, in input order. -/
def costContribs (data : List String) : List CostContrib :=
  data.filterMap cost_contrib_of

/-- The accepted contributions of an input in the hours variant. -/
def hourContribs (data : List String) : List HourContrib :=
  data.filterMap hour_contrib_of

/-- The state of calculate_cost is characterized by the list of accepted
contributions: account-set membership, user presence, totals, per-user
account sets, per-partition buckets, and key uniqueness. -/
def CostChar (cs : List CostContrib) (s : CostState) : Prop :=
  (∀ x : String, x ∈ s.all_accounts ↔ ∃ c ∈ cs, c.account = x) ∧
  (∀ u : String, (s.usage_by_user.lookup u).isSome = true ↔ ∃ c ∈ cs, c.user = u) ∧
  (∀ u agg, s.usage_by_user.lookup u = some agg →
    agg.total = ((cs.filter (fun c => c.user == u)).map CostContrib.jc).sum ∧
    agg.total = (agg.partitions.map (fun q => q.2.cost)).sum ∧
    (∀ x : String, x ∈ agg.accounts ↔ ∃ c ∈ cs, c.user = u ∧ c.account = x) ∧
    (∀ p : String, (agg.partitions.lookup p).isSome = true ↔
      cs.filter (fun c => c.user == u && c.partName == p) ≠ []) ∧
    (∀ p pa, agg.partitions.lookup p = some pa →
      pa.gpu_minutes =
          ((cs.filter (fun c => c.user == u && c.partName == p)).map CostContrib.gm).sum ∧
        pa.cost =
          ((cs.filter (fun c => c.user == u && c.partName == p)).map CostContrib.jc).sum) ∧
    (agg.partitions.map Prod.fst).Nodup) ∧
  (s.usage_by_user.map Prod.fst).Nodup

theorem cost_char_init : CostChar [] ⟨[], []⟩ := by
  refine ⟨by simp, by simp [List.lookup], ?_, by simp⟩
  intro u agg h
  simp [List.lookup] at h

/-- Lookup in the usage map after applying one contribution. -/
theorem lookup_apply_cost (s : CostState) (c : CostContrib) (u : String) :
    (apply_cost_contrib s c).usage_by_user.lookup u =
      if u = c.user then
        some (bump_user_agg c ((s.usage_by_user.lookup c.user).getD ⟨0, [], []⟩))
      else s.usage_by_user.lookup u := by
  show (alistUpdate c.user (bump_user_agg c)
      (alistEnsure c.user ⟨0, [], []⟩ s.usage_by_user)).lookup u = _
  rw [lookup_alistUpdate]
  by_cases hu : u = c.user
  · subst hu
    rw [if_pos rfl, if_pos rfl, lookup_alistEnsure, if_pos rfl]
    rfl
  · rw [if_neg hu, if_neg hu, lookup_alistEnsure, if_neg hu]

/-- Lookup in the partition buckets after one bump. -/
theorem lookup_bump_partitions (c : CostContrib) (ua : UserAgg) (p : String) :
    (bump_user_agg c ua).partitions.lookup p =
      if p = c.partName then
        some (let pb := (ua.partitions.lookup c.partName).getD ⟨0, 0⟩
              { gpu_minutes := pb.gpu_minutes + c.gm, cost := pb.cost + c.jc })
      else ua.partitions.lookup p := by
  show (alistUpdate c.partName _ (alistEnsure c.partName ⟨0, 0⟩ ua.partitions)).lookup p = _
  rw [lookup_alistUpdate]
  by_cases hp : p = c.partName
  · subst hp
    rw [if_pos rfl, if_pos rfl, lookup_alistEnsure, if_pos rfl]
    rfl
  · rw [if_neg hp, if_neg hp, lookup_alistEnsure, if_neg hp]

theorem exists_mem_append_singleton {α : Type} (P : α → Prop) (l : List α) (a : α) :
    (∃ x ∈ l ++ [a], P x) ↔ (∃ x ∈ l, P x) ∨ P a := by
  constructor
  · rintro ⟨x, hx, hP⟩
    rcases List.mem_append.mp hx with h1 | h2
    · exact Or.inl ⟨x, h1, hP⟩
    · rw [List.mem_singleton] at h2
      subst h2
      exact Or.inr hP
  · rintro (⟨x, hx, hP⟩ | hP)
    · exact ⟨x, List.mem_append_left _ hx, hP⟩
    · exact ⟨a, List.mem_append_right _ (List.mem_singleton_self a), hP⟩

theorem cost_char_apply (cs : List CostContrib) (s : CostState) (c : CostContrib)
    (h : CostChar cs s) : CostChar (cs ++ [c]) (apply_cost_contrib s c) := by
  obtain ⟨hA, hB, hC, hD⟩ := h
  obtain ⟨pa, hpa_def⟩ : ∃ pa : UserAgg,
      (s.usage_by_user.lookup c.user).getD ⟨0, [], []⟩ = pa := ⟨_, rfl⟩
  have hpa : pa.total = ((cs.filter (fun x => x.user == c.user)).map CostContrib.jc).sum ∧
      pa.total = (pa.partitions.map (fun q => q.2.cost)).sum ∧
      (∀ x, x ∈ pa.accounts ↔ ∃ c' ∈ cs, c'.user = c.user ∧ c'.account = x) ∧
      (∀ p, (pa.partitions.lookup p).isSome = true ↔
        cs.filter (fun x => x.user == c.user && x.partName == p) ≠ []) ∧
      (∀ p pb, pa.partitions.lookup p = some pb →
        pb.gpu_minutes =
            ((cs.filter (fun x => x.user == c.user && x.partName == p)).map
              CostContrib.gm).sum ∧
          pb.cost =
            ((cs.filter (fun x => x.user == c.user && x.partName == p)).map
              CostContrib.jc).sum) ∧
      (pa.partitions.map Prod.fst).Nodup := by
    cases hl : s.usage_by_user.lookup c.user with
    | some a0 =>
      rw [hl, Option.getD_some] at hpa_def
      subst hpa_def
      exact hC c.user a0 hl
    | none =>
      have hno : ¬∃ c' ∈ cs, c'.user = c.user := by
        rw [← hB c.user, hl]
        simp
      have hfil : cs.filter (fun x => x.user == c.user) = [] := by
        rw [List.filter_eq_nil_iff]
        intro x hx
        simp only [beq_iff_eq]
        exact fun he => hno ⟨x, hx, he⟩
      have hfil2 : ∀ p, cs.filter (fun x => x.user == c.user && x.partName == p) = [] := by
        intro p
        rw [List.filter_eq_nil_iff]
        intro x hx hx2
        rw [Bool.and_eq_true, beq_iff_eq] at hx2
        exact hno ⟨x, hx, hx2.1⟩
      rw [hl, Option.getD_none] at hpa_def
      subst hpa_def
      refine ⟨by simp [hfil], by simp, ?_, ?_, ?_, by simp⟩
      · intro x
        constructor
        · intro hx
          exact absurd hx (List.not_mem_nil x)
        · rintro ⟨c', hc', h1, h2⟩
          exact absurd ⟨c', hc', h1⟩ hno
      · intro p
        simp [List.lookup, hfil2 p]
      · intro p pb hpb
        simp [List.lookup] at hpb
  obtain ⟨hP1, hP2, hP3, hP4, hP5, hP6⟩ := hpa
  have hcu : (c.user == c.user) = true := beq_self_eq_true c.user
  refine ⟨?_, ?_, ?_, ?_⟩
  · -- global account set
    intro x
    show x ∈ setAdd c.account s.all_accounts ↔ _
    rw [mem_setAdd, hA x, exists_mem_append_singleton]
    exact or_congr Iff.rfl eq_comm
  · -- user presence
    intro u
    rw [lookup_apply_cost]
    by_cases hu : u = c.user
    · subst hu
      rw [if_pos rfl, exists_mem_append_singleton]
      simp
    · rw [if_neg hu, hB u, exists_mem_append_singleton]
      constructor
      · exact Or.inl
      · rintro (h1 | h2)
        · exact h1
        · exact absurd h2 (fun he => hu he.symm)
  · -- per-user clauses
    intro u agg hagg
    rw [lookup_apply_cost] at hagg
    by_cases hu : u = c.user
    · subst hu
      rw [if_pos rfl, hpa_def] at hagg
      obtain rfl := (Option.some_inj.mp hagg).symm
      have hpb : (alistEnsure c.partName ⟨0, 0⟩ pa.partitions).lookup c.partName =
          some ((pa.partitions.lookup c.partName).getD ⟨0, 0⟩) := by
        rw [lookup_alistEnsure, if_pos rfl]
      refine ⟨?_, ?_, ?_, ?_, ?_, ?_⟩
      · -- total = filtered jc sum
        rw [List.filter_append,
          filter_singleton_pos (fun x : CostContrib => x.user == c.user) c hcu,
          List.map_append, List.sum_append]
        show pa.total + c.jc = _
        rw [hP1]
        simp
      · -- total = partition cost sum
        have hsum := sum_map_alistUpdate (fun q => q.cost) c.partName
          (fun pb => { gpu_minutes := pb.gpu_minutes + c.gm, cost := pb.cost + c.jc })
          (alistEnsure c.partName ⟨0, 0⟩ pa.partitions) _ hpb
        have hens := sum_map_alistEnsure (fun q => q.cost) c.partName ⟨0, 0⟩
          pa.partitions rfl
        show pa.total + c.jc = _
        simp only [bump_user_agg, hsum, hens, ← hP2]
        ring
      · -- account set of the user
        intro x
        show x ∈ setAdd c.account pa.accounts ↔ _
        rw [mem_setAdd, hP3 x, exists_mem_append_singleton]
        exact or_congr Iff.rfl ⟨fun h1 => ⟨rfl, h1.symm⟩, fun h1 => h1.2.symm⟩
      · -- partition presence
        intro p
        show ((bump_user_agg c pa).partitions.lookup p).isSome = true ↔ _
        rw [lookup_bump_partitions]
        by_cases hp : p = c.partName
        · subst hp
          rw [if_pos rfl]
          have hm : ((fun x : CostContrib =>
              x.user == c.user && x.partName == c.partName) c) = true := by
            simp
          rw [List.filter_append,
            filter_singleton_pos (fun x : CostContrib =>
              x.user == c.user && x.partName == c.partName) c hm]
          simp
        · rw [if_neg hp]
          have hm : ((fun x : CostContrib =>
              x.user == c.user && x.partName == p) c) = false := by
            have : (c.partName == p) = false :=
              beq_eq_false_iff_ne.mpr (fun he => hp he.symm)
            simp [this]
          rw [List.filter_append,
            filter_singleton_neg (fun x : CostContrib =>
              x.user == c.user && x.partName == p) c hm,
            List.append_nil]
          exact hP4 p
      · -- partition bucket values
        intro p pb' hlook
        rw [lookup_bump_partitions] at hlook
        by_cases hp : p = c.partName
        · subst hp
          rw [if_pos rfl] at hlook
          obtain rfl := (Option.some_inj.mp hlook).symm
          have hm : ((fun x : CostContrib =>
              x.user == c.user && x.partName == c.partName) c) = true := by
            simp
          have hcomp :
              ((pa.partitions.lookup c.partName).getD ⟨0, 0⟩).gpu_minutes =
                  ((cs.filter (fun x => x.user == c.user && x.partName == c.partName)).map
                    CostContrib.gm).sum ∧
                ((pa.partitions.lookup c.partName).getD ⟨0, 0⟩).cost =
                  ((cs.filter (fun x => x.user == c.user && x.partName == c.partName)).map
                    CostContrib.jc).sum := by
            cases hpl : pa.partitions.lookup c.partName with
            | some pb0 =>
              rw [Option.getD_some]
              exact hP5 c.partName pb0 hpl
            | none =>
              have hnil : cs.filter
                  (fun x => x.user == c.user && x.partName == c.partName) = [] := by
                by_contra hne
                have := (hP4 c.partName).mpr hne
                rw [hpl] at this
                simp at this
              rw [Option.getD_none, hnil]
              simp
          rw [List.filter_append,
            filter_singleton_pos (fun x : CostContrib =>
              x.user == c.user && x.partName == c.partName) c hm,
            List.map_append, List.map_append, List.sum_append, List.sum_append]
          constructor
          · show ((pa.partitions.lookup c.partName).getD ⟨0, 0⟩).gpu_minutes + c.gm = _
            rw [hcomp.1]
            simp
          · show ((pa.partitions.lookup c.partName).getD ⟨0, 0⟩).cost + c.jc = _
            rw [hcomp.2]
            simp
        · rw [if_neg hp] at hlook
          have hm : ((fun x : CostContrib =>
              x.user == c.user && x.partName == p) c) = false := by
            have : (c.partName == p) = false :=
              beq_eq_false_iff_ne.mpr (fun he => hp he.symm)
            simp [this]
          rw [List.filter_append,
            filter_singleton_neg (fun x : CostContrib =>
              x.user == c.user && x.partName == p) c hm,
            List.append_nil]
          exact hP5 p pb' hlook
      · -- partition keys stay duplicate-free
        show ((bump_user_agg c pa).partitions.map Prod.fst).Nodup
        rw [show (bump_user_agg c pa).partitions = alistUpdate c.partName _
          (alistEnsure c.partName ⟨0, 0⟩ pa.partitions) from rfl, map_fst_alistUpdate]
        exact nodup_keys_alistEnsure _ _ _ hP6
    · rw [if_neg hu] at hagg
      obtain ⟨q1, q2, q3, q4, q5, q6⟩ := hC u agg hagg
      have hcuF : (c.user == u) = false :=
        beq_eq_false_iff_ne.mpr (fun he => hu he.symm)
      refine ⟨?_, q2, ?_, ?_, ?_, q6⟩
      · rw [List.filter_append,
          filter_singleton_neg (fun x : CostContrib => x.user == u) c hcuF,
          List.append_nil]
        exact q1
      · intro x
        rw [q3 x, exists_mem_append_singleton]
        constructor
        · exact Or.inl
        · rintro (h1 | h2)
          · exact h1
          · exact absurd h2.1 (fun he => hu he.symm)
      · intro p
        have hm : (c.user == u && c.partName == p) = false := by
          rw [hcuF, Bool.false_and]
        rw [List.filter_append,
          filter_singleton_neg (fun x : CostContrib => x.user == u && x.partName == p) c hm,
          List.append_nil]
        exact q4 p
      · intro p pb hpb
        have hm : (c.user == u && c.partName == p) = false := by
          rw [hcuF, Bool.false_and]
        rw [List.filter_append,
          filter_singleton_neg (fun x : CostContrib => x.user == u && x.partName == p) c hm,
          List.append_nil]
        exact q5 p pb hpb
  · -- user keys stay duplicate-free
    show ((alistUpdate c.user (bump_user_agg c)
      (alistEnsure c.user ⟨0, [], []⟩ s.usage_by_user)).map Prod.fst).Nodup
    rw [map_fst_alistUpdate]
    exact nodup_keys_alistEnsure _ _ _ hD

theorem costContribs_cons (line : String) (rest : List String) :
    costContribs (line :: rest) = (cost_contrib_of line).toList ++ costContribs rest := by
  rw [costContribs, costContribs, List.filterMap_cons]
  cases cost_contrib_of line <;> simp

theorem cost_char_step (cs : List CostContrib) (s s' : CostState) (line : String)
    (h : CostChar cs s) (hstep : cost_step s line = .ok s') :
    CostChar (cs ++ (cost_contrib_of line).toList) s' := by
  unfold cost_step at hstep
  cases hcl : cost_line line with
  | skip =>
    rw [hcl] at hstep
    have hstep' : Except.ok (ε := Unit) s = .ok s' := hstep
    injection hstep' with he
    subst he
    have hnone : cost_contrib_of line = none := by
      unfold cost_contrib_of
      rw [hcl]
    rw [hnone]
    simpa using h
  | err =>
    rw [hcl] at hstep
    have hbad : (Except.error () : Except Unit CostState) = .ok s' := hstep
    exact Except.noConfusion hbad
  | contrib c =>
    rw [hcl] at hstep
    have hstep' : Except.ok (ε := Unit) (apply_cost_contrib s c) = .ok s' := hstep
    injection hstep' with he
    subst he
    have hsome : cost_contrib_of line = some c := by
      unfold cost_contrib_of
      rw [hcl]
    rw [hsome]
    exact cost_char_apply cs s c h

theorem cost_char_fold (rest : List String) (cs : List CostContrib) (s s' : CostState)
    (h : CostChar cs s) (hfold : rest.foldlM cost_step s = .ok s') :
    CostChar (cs ++ costContribs rest) s' := by
  induction rest generalizing cs s with
  | nil =>
    have hs : Except.ok (ε := Unit) s = .ok s' := hfold
    injection hs with he
    subst he
    simpa [costContribs] using h
  | cons line rest ih =>
    rw [List.foldlM_cons] at hfold
    cases h1 : cost_step s line with
    | error e =>
      rw [h1] at hfold
      have hbad : (Except.error e : Except Unit CostState) = .ok s' := hfold
      exact Except.noConfusion hbad
    | ok s1 =>
      rw [h1] at hfold
      have hfold' : rest.foldlM cost_step s1 = .ok s' := hfold
      have h2 := cost_char_step cs s s1 line h h1
      rw [costContribs_cons, ← List.append_assoc]
      exact ih _ _ h2 hfold'

theorem calculate_cost_char (data : List String) (s : CostState)
    (h : calculate_cost data = .ok s) : CostChar (costContribs data) s := by
  have h2 := cost_char_fold data [] ⟨[], []⟩ s cost_char_init h
  simpa using h2

/-- The state of calculate_gpu_hours characterized by its accepted
contributions. -/
def HourChar (cs : List HourContrib) (s : HourState) : Prop :=
  (∀ x : String, x ∈ s.all_accounts ↔ ∃ c ∈ cs, c.account = x) ∧
  (∀ a : String, (s.usage_by_account.lookup a).isSome = true ↔ ∃ c ∈ cs, c.account = a) ∧
  (∀ a agg, s.usage_by_account.lookup a = some agg →
    agg.total = ((cs.filter (fun c => c.account == a)).map HourContrib.gh).sum ∧
    agg.total = (agg.partitions.map (fun q => q.2)).sum ∧
    (∀ p : String, (agg.partitions.lookup p).isSome = true ↔
      cs.filter (fun c => c.account == a && c.partName == p) ≠ []) ∧
    (∀ p hq, agg.partitions.lookup p = some hq →
      hq = ((cs.filter (fun c => c.account == a && c.partName == p)).map
        HourContrib.gh).sum) ∧
    (agg.partitions.map Prod.fst).Nodup) ∧
  (s.usage_by_account.map Prod.fst).Nodup

theorem hour_char_init : HourChar [] ⟨[], []⟩ := by
  refine ⟨by simp, by simp [List.lookup], ?_, by simp⟩
  intro a agg h
  simp [List.lookup] at h

/-- Lookup in the usage map after applying one hours contribution. -/
theorem lookup_apply_hour (s : HourState) (c : HourContrib) (a : String) :
    (apply_hour_contrib s c).usage_by_account.lookup a =
      if a = c.account then
        some (bump_acc_agg c ((s.usage_by_account.lookup c.account).getD ⟨0, []⟩))
      else s.usage_by_account.lookup a := by
  show (alistUpdate c.account (bump_acc_agg c)
      (alistEnsure c.account ⟨0, []⟩ s.usage_by_account)).lookup a = _
  rw [lookup_alistUpdate]
  by_cases ha : a = c.account
  · subst ha
    rw [if_pos rfl, if_pos rfl, lookup_alistEnsure, if_pos rfl]
    rfl
  · rw [if_neg ha, if_neg ha, lookup_alistEnsure, if_neg ha]

/-- Lookup in the partition buckets after one hours bump. -/
theorem lookup_bump_acc_partitions (c : HourContrib) (aa : AccAgg) (p : String) :
    (bump_acc_agg c aa).partitions.lookup p =
      if p = c.partName then
        some ((aa.partitions.lookup c.partName).getD 0 + c.gh)
      else aa.partitions.lookup p := by
  show (alistUpdate c.partName _ (alistEnsure c.partName 0 aa.partitions)).lookup p = _
  rw [lookup_alistUpdate]
  by_cases hp : p = c.partName
  · subst hp
    rw [if_pos rfl, if_pos rfl, lookup_alistEnsure, if_pos rfl]
    rfl
  · rw [if_neg hp, if_neg hp, lookup_alistEnsure, if_neg hp]

theorem hour_char_apply (cs : List HourContrib) (s : HourState) (c : HourContrib)
    (h : HourChar cs s) : HourChar (cs ++ [c]) (apply_hour_contrib s c) := by
  obtain ⟨hA, hB, hC, hD⟩ := h
  obtain ⟨pa, hpa_def⟩ : ∃ pa : AccAgg,
      (s.usage_by_account.lookup c.account).getD ⟨0, []⟩ = pa := ⟨_, rfl⟩
  have hpa : pa.total = ((cs.filter (fun x => x.account == c.account)).map
        HourContrib.gh).sum ∧
      pa.total = (pa.partitions.map (fun q => q.2)).sum ∧
      (∀ p, (pa.partitions.lookup p).isSome = true ↔
        cs.filter (fun x => x.account == c.account && x.partName == p) ≠ []) ∧
      (∀ p hq, pa.partitions.lookup p = some hq →
        hq = ((cs.filter (fun x => x.account == c.account && x.partName == p)).map
          HourContrib.gh).sum) ∧
      (pa.partitions.map Prod.fst).Nodup := by
    cases hl : s.usage_by_account.lookup c.account with
    | some a0 =>
      rw [hl, Option.getD_some] at hpa_def
      subst hpa_def
      exact hC c.account a0 hl
    | none =>
      have hno : ¬∃ c' ∈ cs, c'.account = c.account := by
        rw [← hB c.account, hl]
        simp
      have hfil : cs.filter (fun x => x.account == c.account) = [] := by
        rw [List.filter_eq_nil_iff]
        intro x hx
        simp only [beq_iff_eq]
        exact fun he => hno ⟨x, hx, he⟩
      have hfil2 : ∀ p,
          cs.filter (fun x => x.account == c.account && x.partName == p) = [] := by
        intro p
        rw [List.filter_eq_nil_iff]
        intro x hx hx2
        rw [Bool.and_eq_true, beq_iff_eq] at hx2
        exact hno ⟨x, hx, hx2.1⟩
      rw [hl, Option.getD_none] at hpa_def
      subst hpa_def
      refine ⟨by simp [hfil], by simp, ?_, ?_, by simp⟩
      · intro p
        simp [List.lookup, hfil2 p]
      · intro p hq hpq
        simp [List.lookup] at hpq
  obtain ⟨hP1, hP2, hP4, hP5, hP6⟩ := hpa
  have hca : (c.account == c.account) = true := beq_self_eq_true c.account
  refine ⟨?_, ?_, ?_, ?_⟩
  · intro x
    show x ∈ setAdd c.account s.all_accounts ↔ _
    rw [mem_setAdd, hA x, exists_mem_append_singleton]
    exact or_congr Iff.rfl eq_comm
  · intro a
    rw [lookup_apply_hour]
    by_cases ha : a = c.account
    · subst ha
      rw [if_pos rfl, exists_mem_append_singleton]
      simp
    · rw [if_neg ha, hB a, exists_mem_append_singleton]
      constructor
      · exact Or.inl
      · rintro (h1 | h2)
        · exact h1
        · exact absurd h2 (fun he => ha he.symm)
  · intro a agg hagg
    rw [lookup_apply_hour] at hagg
    by_cases ha : a = c.account
    · subst ha
      rw [if_pos rfl, hpa_def] at hagg
      obtain rfl := (Option.some_inj.mp hagg).symm
      have hpb : (alistEnsure c.partName (0 : ℚ) pa.partitions).lookup c.partName =
          some ((pa.partitions.lookup c.partName).getD 0) := by
        rw [lookup_alistEnsure, if_pos rfl]
      refine ⟨?_, ?_, ?_, ?_, ?_⟩
      · rw [List.filter_append,
          filter_singleton_pos (fun x : HourContrib => x.account == c.account) c hca,
          List.map_append, List.sum_append]
        show pa.total + c.gh = _
        rw [hP1]
        simp
      · have hsum := sum_map_alistUpdate (fun q : ℚ => q) c.partName
          (fun hq => hq + c.gh) (alistEnsure c.partName 0 pa.partitions) _ hpb
        have hens := sum_map_alistEnsure (fun q : ℚ => q) c.partName 0
          pa.partitions rfl
        show pa.total + c.gh = _
        simp only [bump_acc_agg, hsum, hens, ← hP2]
        ring
      · intro p
        show ((bump_acc_agg c pa).partitions.lookup p).isSome = true ↔ _
        rw [lookup_bump_acc_partitions]
        by_cases hp : p = c.partName
        · subst hp
          rw [if_pos rfl]
          have hm : ((fun x : HourContrib =>
              x.account == c.account && x.partName == c.partName) c) = true := by
            simp
          rw [List.filter_append,
            filter_singleton_pos (fun x : HourContrib =>
              x.account == c.account && x.partName == c.partName) c hm]
          simp
        · rw [if_neg hp]
          have hm : ((fun x : HourContrib =>
              x.account == c.account && x.partName == p) c) = false := by
            have hne : (c.partName == p) = false :=
              beq_eq_false_iff_ne.mpr (fun he => hp he.symm)
            simp [hne]
          rw [List.filter_append,
            filter_singleton_neg (fun x : HourContrib =>
              x.account == c.account && x.partName == p) c hm,
            List.append_nil]
          exact hP4 p
      · intro p hq hlook
        rw [lookup_bump_acc_partitions] at hlook
        by_cases hp : p = c.partName
        · subst hp
          rw [if_pos rfl] at hlook
          obtain rfl := (Option.some_inj.mp hlook).symm
          have hm : ((fun x : HourContrib =>
              x.account == c.account && x.partName == c.partName) c) = true := by
            simp
          have hcomp : (pa.partitions.lookup c.partName).getD 0 =
              ((cs.filter (fun x =>
                x.account == c.account && x.partName == c.partName)).map
                HourContrib.gh).sum := by
            cases hpl : pa.partitions.lookup c.partName with
            | some q0 =>
              rw [Option.getD_some]
              exact hP5 c.partName q0 hpl
            | none =>
              have hnil : cs.filter
                  (fun x => x.account == c.account && x.partName == c.partName) = [] := by
                by_contra hne
                have := (hP4 c.partName).mpr hne
                rw [hpl] at this
                simp at this
              rw [Option.getD_none, hnil]
              simp
          rw [List.filter_append,
            filter_singleton_pos (fun x : HourContrib =>
              x.account == c.account && x.partName == c.partName) c hm,
            List.map_append, List.sum_append, hcomp]
          simp
        · rw [if_neg hp] at hlook
          have hm : ((fun x : HourContrib =>
              x.account == c.account && x.partName == p) c) = false := by
            have hne : (c.partName == p) = false :=
              beq_eq_false_iff_ne.mpr (fun he => hp he.symm)
            simp [hne]
          rw [List.filter_append,
            filter_singleton_neg (fun x : HourContrib =>
              x.account == c.account && x.partName == p) c hm,
            List.append_nil]
          exact hP5 p hq hlook
      · show ((bump_acc_agg c pa).partitions.map Prod.fst).Nodup
        rw [show (bump_acc_agg c pa).partitions = alistUpdate c.partName _
          (alistEnsure c.partName 0 pa.partitions) from rfl, map_fst_alistUpdate]
        exact nodup_keys_alistEnsure _ _ _ hP6
    · rw [if_neg ha] at hagg
      obtain ⟨q1, q2, q4, q5, q6⟩ := hC a agg hagg
      have hcaF : (c.account == a) = false :=
        beq_eq_false_iff_ne.mpr (fun he => ha he.symm)
      refine ⟨?_, q2, ?_, ?_, q6⟩
      · rw [List.filter_append,
          filter_singleton_neg (fun x : HourContrib => x.account == a) c hcaF,
          List.append_nil]
        exact q1
      · intro p
        have hm : (c.account == a && c.partName == p) = false := by
          rw [hcaF, Bool.false_and]
        rw [List.filter_append,
          filter_singleton_neg (fun x : HourContrib =>
            x.account == a && x.partName == p) c hm,
          List.append_nil]
        exact q4 p
      · intro p hq hpq
        have hm : (c.account == a && c.partName == p) = false := by
          rw [hcaF, Bool.false_and]
        rw [List.filter_append,
          filter_singleton_neg (fun x : HourContrib =>
            x.account == a && x.partName == p) c hm,
          List.append_nil]
        exact q5 p hq hpq
  · show ((alistUpdate c.account (bump_acc_agg c)
      (alistEnsure c.account ⟨0, []⟩ s.usage_by_account)).map Prod.fst).Nodup
    rw [map_fst_alistUpdate]
    exact nodup_keys_alistEnsure _ _ _ hD

theorem hourContribs_cons (line : String) (rest : List String) :
    hourContribs (line :: rest) = (hour_contrib_of line).toList ++ hourContribs rest := by
  rw [hourContribs, hourContribs, List.filterMap_cons]
  cases hour_contrib_of line <;> simp

theorem hour_char_step (cs : List HourContrib) (s s' : HourState) (line : String)
    (h : HourChar cs s) (hstep : hour_step s line = .ok s') :
    HourChar (cs ++ (hour_contrib_of line).toList) s' := by
  unfold hour_step at hstep
  cases hcl : hour_line line with
  | skip =>
    rw [hcl] at hstep
    have hstep' : Except.ok (ε := Unit) s = .ok s' := hstep
    injection hstep' with he
    subst he
    have hnone : hour_contrib_of line = none := by
      unfold hour_contrib_of
      rw [hcl]
    rw [hnone]
    simpa using h
  | err =>
    rw [hcl] at hstep
    have hbad : (Except.error () : Except Unit HourState) = .ok s' := hstep
    exact Except.noConfusion hbad
  | contrib c =>
    rw [hcl] at hstep
    have hstep' : Except.ok (ε := Unit) (apply_hour_contrib s c) = .ok s' := hstep
    injection hstep' with he
    subst he
    have hsome : hour_contrib_of line = some c := by
      unfold hour_contrib_of
      rw [hcl]
    rw [hsome]
    exact hour_char_apply cs s c h

theorem hour_char_fold (rest : List String) (cs : List HourContrib) (s s' : HourState)
    (h : HourChar cs s) (hfold : rest.foldlM hour_step s = .ok s') :
    HourChar (cs ++ hourContribs rest) s' := by
  induction rest generalizing cs s with
  | nil =>
    have hs : Except.ok (ε := Unit) s = .ok s' := hfold
    injection hs with he
    subst he
    simpa [hourContribs] using h
  | cons line rest ih =>
    rw [List.foldlM_cons] at hfold
    cases h1 : hour_step s line with
    | error e =>
      rw [h1] at hfold
      have hbad : (Except.error e : Except Unit HourState) = .ok s' := hfold
      exact Except.noConfusion hbad
    | ok s1 =>
      rw [h1] at hfold
      have hfold' : rest.foldlM hour_step s1 = .ok s' := hfold
      have h2 := hour_char_step cs s s1 line h h1
      rw [hourContribs_cons, ← List.append_assoc]
      exact ih _ _ h2 hfold'

theorem calculate_gpu_hours_char (data : List String) (s : HourState)
    (h : calculate_gpu_hours data = .ok s) : HourChar (hourContribs data) s := by
  have h2 := hour_char_fold data [] ⟨[], []⟩ s hour_char_init h
  simpa using h2

/-- The successful aggregation state of the cost variant on an input
(the empty state when the aggregation raises). -/
def cost_ok_state (data : List String) : CostState :=
  ((calculate_cost data).toOption).getD ⟨[], []⟩

/-- The successful aggregation state of the hours variant on an input. -/
def hour_ok_state (data : List String) : HourState :=
  ((calculate_gpu_hours data).toOption).getD ⟨[], []⟩

/-! ## Claim C5 -/

/-- C5: in every successfully aggregated state, every entity's total equals
the sum of its per-partition subtotals (cost in the per-user variant,
gpu-hours in the per-account variant), and every partition key present in an
entity's buckets has at least one contributing job line in the input. -/
theorem c5_totals_and_contributing_jobs :
    (∀ (data : List String) (s : CostState), calculate_cost data = .ok s →
      ∀ p ∈ s.usage_by_user,
        p.2.total = (p.2.partitions.map (fun q => q.2.cost)).sum ∧
        ∀ q ∈ p.2.partitions, ∃ line ∈ data, ∃ c, cost_contrib_of line = some c ∧
          c.user = p.1 ∧ c.partName = q.1) ∧
    (∀ (data : List String) (s : HourState), calculate_gpu_hours data = .ok s →
      ∀ p ∈ s.usage_by_account,
        p.2.total = (p.2.partitions.map (fun q => q.2)).sum ∧
        ∀ q ∈ p.2.partitions, ∃ line ∈ data, ∃ c, hour_contrib_of line = some c ∧
          c.account = p.1 ∧ c.partName = q.1) := by
  constructor
  · intro data s hok p hp
    obtain ⟨hA, hB, hC, hD⟩ := calculate_cost_char data s hok
    obtain ⟨pu, agg⟩ := p
    have hlk := lookup_of_mem_nodup hD hp
    obtain ⟨h1, h2, h3, h4, h5, h6⟩ := hC pu agg hlk
    refine ⟨h2, ?_⟩
    intro q hq
    obtain ⟨pn, pv⟩ := q
    have hlkp := lookup_of_mem_nodup h6 hq
    have hsome : (agg.partitions.lookup pn).isSome = true := by
      rw [hlkp]
      rfl
    have hne := (h4 pn).mp hsome
    obtain ⟨y, hy⟩ := List.exists_mem_of_ne_nil _ hne
    rw [List.mem_filter] at hy
    obtain ⟨hy1, hy2⟩ := hy
    rw [Bool.and_eq_true, beq_iff_eq, beq_iff_eq] at hy2
    obtain ⟨line, hline, hco⟩ := List.mem_filterMap.mp hy1
    exact ⟨line, hline, y, hco, hy2.1, hy2.2⟩
  · intro data s hok p hp
    obtain ⟨hA, hB, hC, hD⟩ := calculate_gpu_hours_char data s hok
    obtain ⟨pu, agg⟩ := p
    have hlk := lookup_of_mem_nodup hD hp
    obtain ⟨h1, h2, h4, h5, h6⟩ := hC pu agg hlk
    refine ⟨h2, ?_⟩
    intro q hq
    obtain ⟨pn, pv⟩ := q
    have hlkp := lookup_of_mem_nodup h6 hq
    have hsome : (agg.partitions.lookup pn).isSome = true := by
      rw [hlkp]
      rfl
    have hne := (h4 pn).mp hsome
    obtain ⟨y, hy⟩ := List.exists_mem_of_ne_nil _ hne
    rw [List.mem_filter] at hy
    obtain ⟨hy1, hy2⟩ := hy
    rw [Bool.and_eq_true, beq_iff_eq, beq_iff_eq] at hy2
    obtain ⟨line, hline, hco⟩ := List.mem_filterMap.mp hy1
    exact ⟨line, hline, y, hco, hy2.1, hy2.2⟩

/-- Witness for C5 at one concrete contributing job line per variant. -/
theorem c5_totals_and_contributing_jobs_witness :
    (∀ p ∈ (cost_ok_state ["j1|alice|3600|gres/gpu=2|normal|acctA"]).usage_by_user,
      p.2.total = (p.2.partitions.map (fun q => q.2.cost)).sum ∧
      ∀ q ∈ p.2.partitions, ∃ line ∈ ["j1|alice|3600|gres/gpu=2|normal|acctA"],
        ∃ c, cost_contrib_of line = some c ∧ c.user = p.1 ∧ c.partName = q.1) ∧
    (∀ p ∈ (hour_ok_state ["j1|alice|7200|gres/gpu=3|large|acctB"]).usage_by_account,
      p.2.total = (p.2.partitions.map (fun q => q.2)).sum ∧
      ∀ q ∈ p.2.partitions, ∃ line ∈ ["j1|alice|7200|gres/gpu=3|large|acctB"],
        ∃ c, hour_contrib_of line = some c ∧ c.account = p.1 ∧ c.partName = q.1) :=
  ⟨c5_totals_and_contributing_jobs.1 ["j1|alice|3600|gres/gpu=2|normal|acctA"]
      (cost_ok_state ["j1|alice|3600|gres/gpu=2|normal|acctA"]) rfl,
    c5_totals_and_contributing_jobs.2 ["j1|alice|7200|gres/gpu=3|large|acctB"]
      (hour_ok_state ["j1|alice|7200|gres/gpu=3|large|acctB"]) rfl⟩

/-! ## Claim C7 -/

/-- Extensional equality of two cost-variant aggregation states: same global
account set, same set of users, and per user the same total, the same
account set, and identical per-partition gpu-minute/cost buckets. -/
def cost_state_equiv (s₁ s₂ : CostState) : Prop :=
  (∀ x : String, x ∈ s₁.all_accounts ↔ x ∈ s₂.all_accounts) ∧
  (∀ u : String, (s₁.usage_by_user.lookup u).isSome =
    (s₂.usage_by_user.lookup u).isSome) ∧
  (∀ u a₁ a₂, s₁.usage_by_user.lookup u = some a₁ →
    s₂.usage_by_user.lookup u = some a₂ →
    a₁.total = a₂.total ∧
    (∀ x : String, x ∈ a₁.accounts ↔ x ∈ a₂.accounts) ∧
    (∀ p : String, a₁.partitions.lookup p = a₂.partitions.lookup p))

/-- Extensional equality of two hours-variant aggregation states. -/
def hour_state_equiv (s₁ s₂ : HourState) : Prop :=
  (∀ x : String, x ∈ s₁.all_accounts ↔ x ∈ s₂.all_accounts) ∧
  (∀ a : String, (s₁.usage_by_account.lookup a).isSome =
    (s₂.usage_by_account.lookup a).isSome) ∧
  (∀ a a₁ a₂, s₁.usage_by_account.lookup a = some a₁ →
    s₂.usage_by_account.lookup a = some a₂ →
    a₁.total = a₂.total ∧
    (∀ p : String, a₁.partitions.lookup p = a₂.partitions.lookup p))

theorem exists_mem_perm_congr {α : Type} {l₁ l₂ : List α} (h : l₁.Perm l₂)
    (P : α → Prop) : (∃ x ∈ l₁, P x) ↔ ∃ x ∈ l₂, P x :=
  exists_congr fun _x => and_congr_left fun _ => h.mem_iff

/-- C7: permuting the input line sequence yields extensionally identical
aggregates in both variants — the same entity set, the same per-partition
gpu-minute and cost values, the same entity totals, and the same account
sets. -/
theorem c7_permutation_invariance :
    (∀ (d₁ d₂ : List String) (s₁ s₂ : CostState), d₁.Perm d₂ →
      calculate_cost d₁ = .ok s₁ → calculate_cost d₂ = .ok s₂ →
      cost_state_equiv s₁ s₂) ∧
    (∀ (d₁ d₂ : List String) (s₁ s₂ : HourState), d₁.Perm d₂ →
      calculate_gpu_hours d₁ = .ok s₁ → calculate_gpu_hours d₂ = .ok s₂ →
      hour_state_equiv s₁ s₂) := by
  constructor
  · intro d₁ d₂ s₁ s₂ hperm hok₁ hok₂
    obtain ⟨hA₁, hB₁, hC₁, hD₁⟩ := calculate_cost_char d₁ s₁ hok₁
    obtain ⟨hA₂, hB₂, hC₂, hD₂⟩ := calculate_cost_char d₂ s₂ hok₂
    have hcs : (costContribs d₁).Perm (costContribs d₂) :=
      hperm.filterMap cost_contrib_of
    refine ⟨?_, ?_, ?_⟩
    · intro x
      rw [hA₁ x, hA₂ x]
      exact exists_mem_perm_congr hcs _
    · intro u
      rw [Bool.eq_iff_iff, hB₁ u, hB₂ u]
      exact exists_mem_perm_congr hcs _
    · intro u a₁ a₂ h₁ h₂
      obtain ⟨t1, t2, t3, t4, t5, t6⟩ := hC₁ u a₁ h₁
      obtain ⟨t1', t2', t3', t4', t5', t6'⟩ := hC₂ u a₂ h₂
      have hfu : ((costContribs d₁).filter (fun c => c.user == u)).Perm
          ((costContribs d₂).filter (fun c => c.user == u)) := hcs.filter _
      refine ⟨?_, ?_, ?_⟩
      · rw [t1, t1']
        exact (hfu.map CostContrib.jc).sum_eq
      · intro x
        rw [t3 x, t3' x]
        exact exists_mem_perm_congr hcs _
      · intro p
        have hfp : ((costContribs d₁).filter
            (fun c => c.user == u && c.partName == p)).Perm
            ((costContribs d₂).filter (fun c => c.user == u && c.partName == p)) :=
          hcs.filter _
        by_cases hnil : (costContribs d₁).filter
            (fun c => c.user == u && c.partName == p) = []
        · have hnil₂ : (costContribs d₂).filter
              (fun c => c.user == u && c.partName == p) = [] := by
            rw [hnil] at hfp
            exact hfp.symm.eq_nil
          have he₁ : a₁.partitions.lookup p = none := by
            rw [← Option.not_isSome_iff_eq_none]
            intro hsome
            exact (t4 p).mp hsome hnil
          have he₂ : a₂.partitions.lookup p = none := by
            rw [← Option.not_isSome_iff_eq_none]
            intro hsome
            exact (t4' p).mp hsome hnil₂
          rw [he₁, he₂]
        · have hnil₂ : (costContribs d₂).filter
              (fun c => c.user == u && c.partName == p) ≠ [] := by
            intro h0
            rw [h0] at hfp
            exact hnil hfp.eq_nil
          obtain ⟨pb₁, hpb₁⟩ := Option.isSome_iff_exists.mp ((t4 p).mpr hnil)
          obtain ⟨pb₂, hpb₂⟩ := Option.isSome_iff_exists.mp ((t4' p).mpr hnil₂)
          obtain ⟨hg₁, hc₁⟩ := t5 p pb₁ hpb₁
          obtain ⟨hg₂, hc₂⟩ := t5' p pb₂ hpb₂
          have hpbeq : pb₁ = pb₂ := by
            have e1 : pb₁.gpu_minutes = pb₂.gpu_minutes := by
              rw [hg₁, hg₂]
              exact (hfp.map CostContrib.gm).sum_eq
            have e2 : pb₁.cost = pb₂.cost := by
              rw [hc₁, hc₂]
              exact (hfp.map CostContrib.jc).sum_eq
            cases pb₁
            cases pb₂
            simp_all
          rw [hpb₁, hpb₂, hpbeq]
  · intro d₁ d₂ s₁ s₂ hperm hok₁ hok₂
    obtain ⟨hA₁, hB₁, hC₁, hD₁⟩ := calculate_gpu_hours_char d₁ s₁ hok₁
    obtain ⟨hA₂, hB₂, hC₂, hD₂⟩ := calculate_gpu_hours_char d₂ s₂ hok₂
    have hcs : (hourContribs d₁).Perm (hourContribs d₂) :=
      hperm.filterMap hour_contrib_of
    refine ⟨?_, ?_, ?_⟩
    · intro x
      rw [hA₁ x, hA₂ x]
      exact exists_mem_perm_congr hcs _
    · intro a
      rw [Bool.eq_iff_iff, hB₁ a, hB₂ a]
      exact exists_mem_perm_congr hcs _
    · intro a a₁ a₂ h₁ h₂
      obtain ⟨t1, t2, t4, t5, t6⟩ := hC₁ a a₁ h₁
      obtain ⟨t1', t2', t4', t5', t6'⟩ := hC₂ a a₂ h₂
      have hfa : ((hourContribs d₁).filter (fun c => c.account == a)).Perm
          ((hourContribs d₂).filter (fun c => c.account == a)) := hcs.filter _
      refine ⟨?_, ?_⟩
      · rw [t1, t1']
        exact (hfa.map HourContrib.gh).sum_eq
      · intro p
        have hfp : ((hourContribs d₁).filter
            (fun c => c.account == a && c.partName == p)).Perm
            ((hourContribs d₂).filter (fun c => c.account == a && c.partName == p)) :=
          hcs.filter _
        by_cases hnil : (hourContribs d₁).filter
            (fun c => c.account == a && c.partName == p) = []
        · have hnil₂ : (hourContribs d₂).filter
              (fun c => c.account == a && c.partName == p) = [] := by
            rw [hnil] at hfp
            exact hfp.symm.eq_nil
          have he₁ : a₁.partitions.lookup p = none := by
            rw [← Option.not_isSome_iff_eq_none]
            intro hsome
            exact (t4 p).mp hsome hnil
          have he₂ : a₂.partitions.lookup p = none := by
            rw [← Option.not_isSome_iff_eq_none]
            intro hsome
            exact (t4' p).mp hsome hnil₂
          rw [he₁, he₂]
        · have hnil₂ : (hourContribs d₂).filter
              (fun c => c.account == a && c.partName == p) ≠ [] := by
            intro h0
            rw [h0] at hfp
            exact hnil hfp.eq_nil
          obtain ⟨q₁, hq₁⟩ := Option.isSome_iff_exists.mp ((t4 p).mpr hnil)
          obtain ⟨q₂, hq₂⟩ := Option.isSome_iff_exists.mp ((t4' p).mpr hnil₂)
          have e1 : q₁ = q₂ := by
            rw [t5 p q₁ hq₁, t5' p q₂ hq₂]
            exact (hfp.map HourContrib.gh).sum_eq
          rw [hq₁, hq₂, e1]

/-- Witness for C7 at a concrete two-line input and its swap. -/
theorem c7_permutation_invariance_witness :
    cost_state_equiv
        (cost_ok_state ["j1|alice|3600|gres/gpu=2|normal|acctA",
                        "j2|bob|600|gres/gpu=1|large|acctB"])
        (cost_ok_state ["j2|bob|600|gres/gpu=1|large|acctB",
                        "j1|alice|3600|gres/gpu=2|normal|acctA"]) ∧
      hour_state_equiv
        (hour_ok_state ["j1|alice|3600|gres/gpu=2|normal|acctA",
                        "j2|bob|600|gres/gpu=1|large|acctB"])
        (hour_ok_state ["j2|bob|600|gres/gpu=1|large|acctB",
                        "j1|alice|3600|gres/gpu=2|normal|acctA"]) :=
  ⟨c7_permutation_invariance.1
      ["j1|alice|3600|gres/gpu=2|normal|acctA", "j2|bob|600|gres/gpu=1|large|acctB"]
      ["j2|bob|600|gres/gpu=1|large|acctB", "j1|alice|3600|gres/gpu=2|normal|acctA"]
      (cost_ok_state ["j1|alice|3600|gres/gpu=2|normal|acctA",
        "j2|bob|600|gres/gpu=1|large|acctB"])
      (cost_ok_state ["j2|bob|600|gres/gpu=1|large|acctB",
        "j1|alice|3600|gres/gpu=2|normal|acctA"])
      (List.Perm.swap "j2|bob|600|gres/gpu=1|large|acctB"
        "j1|alice|3600|gres/gpu=2|normal|acctA" [])
      rfl rfl,
    c7_permutation_invariance.2
      ["j1|alice|3600|gres/gpu=2|normal|acctA", "j2|bob|600|gres/gpu=1|large|acctB"]
      ["j2|bob|600|gres/gpu=1|large|acctB", "j1|alice|3600|gres/gpu=2|normal|acctA"]
      (hour_ok_state ["j1|alice|3600|gres/gpu=2|normal|acctA",
        "j2|bob|600|gres/gpu=1|large|acctB"])
      (hour_ok_state ["j2|bob|600|gres/gpu=1|large|acctB",
        "j1|alice|3600|gres/gpu=2|normal|acctA"])
      (List.Perm.swap "j2|bob|600|gres/gpu=1|large|acctB"
        "j1|alice|3600|gres/gpu=2|normal|acctA" [])
      rfl rfl⟩
